import Mathlib

/-!
Verification of the per-symbol trading bot (`OBT 20min.py`).

The embedding models the decision core of the `TradingBot` class:
indicator computation (`calculate_indicators`), signal detection
(`analyze_signals`), the simulated order executions (`execute_buy`,
`execute_sell`), and the decision step of the `run` loop.  Python floats
are modelled as exact rationals; pandas NaN / missing values are modelled
with `Option`; a raised exception (the only one possible in the decision
core is `ZeroDivisionError` in `execute_buy`) is modelled by `none` in an
`Option`-valued result.
-/

set_option autoImplicit false

namespace TradingBot

/-- One row of the indicator dataframe after `dropna`: close price together
with the four derived indicator values (all defined). -/
structure Snapshot where
  close : ℚ
  ema5 : ℚ
  ema10 : ℚ
  rsi : ℚ
  roc : ℚ
  deriving Repr, DecidableEq, Inhabited

/-- The dictionary returned by `analyze_signals`. -/
structure Signals where
  buy : Bool
  sell : Bool
  deriving Repr, DecidableEq

/-- The `self.position` dictionary set by `execute_buy`. -/
structure Position where
  entry_price : ℚ
  quantity : ℚ
  timestamp : ℕ
  deriving Repr, DecidableEq

/-- The mutable account state of one `TradingBot` instance:
`self.demo_balance` and `self.position` (`None` or a position dict). -/
structure BotState where
  demo_balance : ℚ
  position : Option Position
  deriving Repr, DecidableEq

/-! ## Indicator Engine (`calculate_indicators`)

`pandas_ta` semantics, per series over the close column `closes`
(index `i` ranges over `0 .. closes.length - 1`):

* `ta.ema(close, length=l)` (default SMA seed): undefined (NaN) for
  `i + 1 < l`; at `i + 1 = l` it is the simple average of the first `l`
  closes; afterwards `ema_i = α * close_i + (1 - α) * ema_(i-1)` with
  `α = 2 / (l + 1)`.
* `ta.rsi(close, length=7)`: built from the first difference of the closes
  (undefined at index 0) and adjusted exponential weighted averages of the
  gain and loss parts with `alpha = 1/7` and `min_periods = 7`, so it is
  undefined for `i < 7`; it is also NaN (0/0) when every difference in the
  window is zero.
* `ta.roc(close, length=5)`: undefined for `i < 5`, else
  `100 * (close_i - close_(i-5)) / close_(i-5)`.

`df.dropna()` keeps exactly the rows where all four are defined. -/

/-- `ta.ema` value at index `i` (`none` = NaN): SMA-seeded recursive EMA. -/
def emaAt (l : ℕ) (closes : List ℚ) : ℕ → Option ℚ
  | 0 =>
    if 1 = l then some ((closes.take l).sum / (l : ℚ)) else none
  | i + 1 =>
    if i + 2 < l then none
    else if i + 2 = l then some ((closes.take l).sum / (l : ℚ))
    else
      (emaAt l closes i).map fun e =>
        (2 / ((l : ℚ) + 1)) * closes.getD (i + 1) 0
          + (1 - 2 / ((l : ℚ) + 1)) * e

/-- First difference `close.diff()` at index `k ≥ 1`. -/
def diffAt (closes : List ℚ) (k : ℕ) : ℚ :=
  closes.getD k 0 - closes.getD (k - 1) 0

/-- Gain part of the difference series (negatives clipped to 0). -/
def gainAt (closes : List ℚ) (k : ℕ) : ℚ :=
  max (diffAt closes k) 0

/-- Loss part of the difference series, as a nonnegative magnitude. -/
def lossAt (closes : List ℚ) (k : ℕ) : ℚ :=
  max (-(diffAt closes k)) 0

/-- Numerator of the adjusted (`adjust=True`) exponential weighted mean of
`f 1, …, f i` with decay `ω = 1 - alpha`:
`Σ_(k=1..i) ω^(i-k) * f k`, computed recursively. -/
def ewmNum (f : ℕ → ℚ) (ω : ℚ) : ℕ → ℚ
  | 0 => 0
  | i + 1 => ω * ewmNum f ω i + f (i + 1)

/-- `ta.rsi(close, length=7)` value at index `i` (`none` = NaN). -/
def rsiAt (closes : List ℚ) (i : ℕ) : Option ℚ :=
  if i < 7 then none
  else
    let ω : ℚ := 1 - 1 / 7
    let w := ewmNum (fun _ => 1) ω i
    let pa := ewmNum (gainAt closes) ω i / w
    let na := ewmNum (lossAt closes) ω i / w
    if pa + na = 0 then none else some (100 * pa / (pa + na))

/-- `ta.roc(close, length=5)` value at index `i` (`none` = NaN). -/
def rocAt (closes : List ℚ) (i : ℕ) : Option ℚ :=
  if i < 5 then none
  else some (100 * (closes.getD i 0 - closes.getD (i - 5) 0) / closes.getD (i - 5) 0)

/-- `calculate_indicators`: compute the four indicator columns over the
close column and `dropna()`, keeping exactly the rows where all four are
defined. -/
def calculate_indicators (closes : List ℚ) : List Snapshot :=
  (List.range closes.length).filterMap fun i =>
    match emaAt 5 closes i, emaAt 10 closes i, rsiAt closes i, rocAt closes i with
    | some e5, some e10, some r, some rc =>
      some { close := closes.getD i 0, ema5 := e5, ema10 := e10, rsi := r, roc := rc }
    | _, _, _, _ => none

/-! ## Signal Detector (`analyze_signals`) -/

/-- The `buy_signal` conjunction of `analyze_signals`. -/
def buySignal (prev last : Snapshot) : Bool :=
  decide (prev.ema5 < prev.ema10) && decide (last.ema5 > last.ema10)
    && decide (last.rsi < 40) && decide (last.roc > 1)

/-- The `sell_signal` conjunction of `analyze_signals`. -/
def sellSignal (prev last : Snapshot) : Bool :=
  decide (prev.ema5 > prev.ema10) && decide (last.ema5 < last.ema10)
    && decide (last.rsi > 60) && decide (last.roc < -1)

/-- `analyze_signals`: with fewer than two rows return no signal; otherwise
compare the second-to-last row (`df.iloc[-2]`) with the last row
(`df.iloc[-1]`). -/
def analyze_signals (df : List Snapshot) : Signals :=
  if df.length < 2 then { buy := false, sell := false }
  else
    match df.dropLast.getLast?, df.getLast? with
    | some prev, some last => { buy := buySignal prev last, sell := sellSignal prev last }
    | _, _ => { buy := false, sell := false }

/-! ## Position State Machine (`execute_buy`, `execute_sell`) -/

/-- `execute_buy`: no-op when the balance is not positive; otherwise open a
position over the whole balance.  `none` models the `ZeroDivisionError`
raised by `self.demo_balance / price` at `price = 0` (the assignment to
`self.position` never happens in that case, so the state is unchanged when
the exception is caught by the caller). -/
def execute_buy (s : BotState) (price : ℚ) (t : ℕ) : Option BotState :=
  if s.demo_balance ≤ 0 then some s
  else if price = 0 then none
  else
    some { demo_balance := 0,
           position := some { entry_price := price,
                              quantity := s.demo_balance / price,
                              timestamp := t } }

/-- `execute_sell`: no-op without a position; otherwise liquidate at the
given price.  The second component is the reported `profit`
(`none` when no sell happened). -/
def execute_sell (s : BotState) (price : ℚ) : BotState × Option ℚ :=
  match s.position with
  | none => (s, none)
  | some p =>
    ({ demo_balance := p.quantity * price, position := none },
     some ((price - p.entry_price) * p.quantity))

/-! ## Symbol Worker decision step and loop body (`run`) -/

/-- The decision step of one `run` cycle: with a position, sell on a sell
signal; without one, buy on a buy signal; otherwise leave the state alone.
`none` propagates the `ZeroDivisionError` of `execute_buy`. -/
def stepDecision (s : BotState) (sig : Signals) (price : ℚ) (t : ℕ) : Option BotState :=
  match s.position with
  | some _ => if sig.sell then some (execute_sell s price).1 else some s
  | none => if sig.buy then execute_buy s price t else some s

/-- The possible outcomes of the fetch/compute part of one `run` cycle.
`fetchEmpty` is `get_candle_data` returning an empty frame (which includes
every fetch error, caught inside it); `indicatorsEmpty` is
`calculate_indicators` returning an empty frame; `rows` is a successful
compute with the resulting snapshot rows; `interrupt` is a
`KeyboardInterrupt` (operator stop); `exn` is any other exception raised
during the cycle. -/
inductive CycleInput where
  | fetchEmpty
  | indicatorsEmpty
  | rows (df : List Snapshot)
  | interrupt
  | exn
  deriving Repr, DecidableEq

/-- One iteration of the `while True` loop of `run`: returns the state after
the iteration and `true` when the loop goes to sleep and continues,
`false` when it breaks.  Every branch except `KeyboardInterrupt` sleeps
and continues; an exception inside the decision step (modelled by
`stepDecision` returning `none`) is caught by the outer handler with the
state unchanged. -/
def runCycle (s : BotState) (t : ℕ) : CycleInput → BotState × Bool
  | .fetchEmpty => (s, true)
  | .indicatorsEmpty => (s, true)
  | .rows df =>
    let sig := analyze_signals df
    let price := (df.getLastD default).close
    match stepDecision s sig price t with
    | some s' => (s', true)
    | none => (s, true)
  | .interrupt => (s, false)
  | .exn => (s, true)

/-- Reachable account states of one symbol's state machine: start Flat with
a positive initial balance; each completed transition is one decision step
at a positive price. -/
inductive Reachable : BotState → Prop where
  | init (b : ℚ) (hb : 0 < b) : Reachable { demo_balance := b, position := none }
  | step (s s' : BotState) (sig : Signals) (price : ℚ) (t : ℕ) (hs : Reachable s)
      (hp : 0 < price) (h : stepDecision s sig price t = some s') : Reachable s'

/-! ## Helper lemmas -/

/-- With at least two rows, `analyze_signals` compares the second-to-last
row with the last row. -/
theorem analyze_signals_append (xs : List Snapshot) (prev last : Snapshot) :
    analyze_signals (xs ++ [prev, last]) =
      { buy := buySignal prev last, sell := sellSignal prev last } := by
  have hre : xs ++ [prev, last] = (xs ++ [prev]) ++ [last] := by simp
  rw [analyze_signals, hre, List.dropLast_concat, List.getLast?_concat,
    List.getLast?_concat]
  rw [if_neg (by simp)]

/-- `analyze_signals` either returns no signal or the two signal
conjunctions of some pair of rows. -/
theorem analyze_signals_cases (df : List Snapshot) :
    analyze_signals df = { buy := false, sell := false } ∨
      ∃ prev last, analyze_signals df =
        { buy := buySignal prev last, sell := sellSignal prev last } := by
  rw [analyze_signals]
  split
  · exact Or.inl rfl
  · split
    · rename_i prev last hp2 hl2
      exact Or.inr ⟨prev, last, rfl⟩
    · exact Or.inl rfl

/-- The two signal conjunctions are never both true: they demand opposite
strict orderings of the previous row's EMAs. -/
theorem buySignal_sellSignal_not_both (prev last : Snapshot) :
    ¬(buySignal prev last = true ∧ sellSignal prev last = true) := by
  rintro ⟨hb, hs⟩
  simp only [buySignal, sellSignal, Bool.and_eq_true, decide_eq_true_eq] at hb hs
  exact lt_asymm hb.1.1.1 hs.1.1.1

/-- The SMA-seeded EMA of span `l` is undefined before index `l - 1`. -/
theorem emaAt_eq_none (l : ℕ) (closes : List ℚ) (i : ℕ) (h : i + 1 < l) :
    emaAt l closes i = none := by
  cases i with
  | zero => rw [emaAt, if_neg (by omega)]
  | succ j => rw [emaAt, if_pos (by omega)]

/-- The strengthened reachability invariant: a reachable state is Flat with
a positive balance, or holds a position of positive quantity with a zero
balance. -/
theorem reachable_invariant (s : BotState) (h : Reachable s) :
    (0 < s.demo_balance ∧ s.position = none) ∨
      (s.demo_balance = 0 ∧ ∃ p, s.position = some p ∧ 0 < p.quantity) := by
  induction h with
  | init b hb => exact Or.inl ⟨hb, rfl⟩
  | step s s' sig price t hs hp hstep ih =>
    obtain ⟨b, pos⟩ := s
    rcases ih with ⟨hb, hpos⟩ | ⟨hb, p, hpos, hq⟩ <;>
      simp only at hb hpos <;> subst hpos
    · by_cases hbuy : sig.buy
      · rw [stepDecision] at hstep
        simp only [hbuy, if_true] at hstep
        rw [execute_buy] at hstep
        simp only at hstep
        rw [if_neg (not_le.mpr hb), if_neg (ne_of_gt hp)] at hstep
        cases hstep
        exact Or.inr ⟨rfl, _, rfl, div_pos hb hp⟩
      · rw [stepDecision] at hstep
        simp only [hbuy, if_false] at hstep
        cases hstep
        exact Or.inl ⟨hb, rfl⟩
    · by_cases hsell : sig.sell
      · rw [stepDecision] at hstep
        simp only [hsell, if_true, execute_sell] at hstep
        cases hstep
        exact Or.inl ⟨mul_pos hq hp, rfl⟩
      · rw [stepDecision] at hstep
        simp only [hsell, if_false] at hstep
        cases hstep
        exact Or.inr ⟨hb, p, rfl, hq⟩

/-! ## Claim theorems -/

/-- C1: every reachable account state (positive initial balance, every
transition at a positive price) satisfies, after any completed transition,
exactly one of: positive balance with no position, or zero balance with a
position — all in cash or all in the position. -/
theorem account_all_in_or_all_out (s : BotState) (h : Reachable s) :
    Xor' (0 < s.demo_balance ∧ s.position = none)
      (s.demo_balance = 0 ∧ s.position.isSome = true) := by
  rcases reachable_invariant s h with ⟨hb, hpos⟩ | ⟨hb, p, hpos, _⟩
  · exact Or.inl ⟨⟨hb, hpos⟩, fun hc => ne_of_gt hb hc.1⟩
  · refine Or.inr ⟨⟨hb, by rw [hpos]; rfl⟩, fun hc => ?_⟩
    rw [hb] at hc
    exact lt_irrefl 0 hc.1

/-- C1 witness: the initial state with balance 500 is reachable and
satisfies the invariant. -/
theorem account_all_in_or_all_out_witness :
    Xor' (0 < (⟨500, none⟩ : BotState).demo_balance ∧
        (⟨500, none⟩ : BotState).position = none)
      ((⟨500, none⟩ : BotState).demo_balance = 0 ∧
        (⟨500, none⟩ : BotState).position.isSome = true) :=
  account_all_in_or_all_out ⟨500, none⟩
    (Reachable.init 500 (by norm_num))

/-- C2: for two consecutive rows (prev, last) the buy signal holds iff
`prev.ema5 < prev.ema10`, `last.ema5 > last.ema10`, `last.rsi < 40` and
`last.roc > 1`, all four comparisons strict. -/
theorem buy_signal_iff (xs : List Snapshot) (prev last : Snapshot) :
    (analyze_signals (xs ++ [prev, last])).buy = true ↔
      (prev.ema5 < prev.ema10 ∧ last.ema5 > last.ema10 ∧
        last.rsi < 40 ∧ last.roc > 1) := by
  rw [analyze_signals_append]
  simp [buySignal, and_assoc]

/-- C3: the signal detector never reports buy and sell simultaneously, on
any input frame. -/
theorem buy_sell_mutually_exclusive (df : List Snapshot) :
    ¬((analyze_signals df).buy = true ∧ (analyze_signals df).sell = true) := by
  rcases analyze_signals_cases df with hna | ⟨prev, last, hab⟩
  · rw [hna]
    rintro ⟨h, -⟩
    exact Bool.false_ne_true h
  · rw [hab]
    exact buySignal_sellSignal_not_both prev last

/-- C4: from a Flat state with positive balance, a buy at a positive price
invests the whole balance: quantity `balance / price`, entry price `price`,
balance zero, and `quantity * entry_price` recovers the invested amount
exactly in exact arithmetic. -/
theorem execute_buy_all_in (s : BotState) (price : ℚ) (t : ℕ)
    (hflat : s.position = none) (hb : 0 < s.demo_balance) (hp : 0 < price) :
    execute_buy s price t =
      some { demo_balance := 0,
             position := some { entry_price := price,
                                quantity := s.demo_balance / price,
                                timestamp := t } } ∧
      (s.demo_balance / price) * price = s.demo_balance := by
  constructor
  · rw [execute_buy, if_neg (not_le.mpr hb), if_neg (ne_of_gt hp)]
  · exact div_mul_cancel₀ s.demo_balance (ne_of_gt hp)

/-- C4 witness: buying at price 2 with balance 500 while Flat. -/
theorem execute_buy_all_in_witness :
    execute_buy ⟨500, none⟩ 2 0 = some ⟨0, some ⟨2, 500 / 2, 0⟩⟩ ∧
      ((500 : ℚ) / 2) * 2 = 500 :=
  execute_buy_all_in ⟨500, none⟩ 2 0 rfl
    (by show (0 : ℚ) < 500; norm_num) (by norm_num)

/-- C5: selling a held position at a price sets the balance to
`quantity * price`, reports profit `(price - entry_price) * quantity`, and
clears the position. -/
theorem execute_sell_liquidates (s : BotState) (p : Position) (price : ℚ)
    (h : s.position = some p) :
    execute_sell s price =
      ({ demo_balance := p.quantity * price, position := none },
       some ((price - p.entry_price) * p.quantity)) := by
  obtain ⟨b, pos⟩ := s
  simp only at h
  subst h
  rfl

/-- C5 witness: selling 250 units entered at 2 for price 3. -/
theorem execute_sell_liquidates_witness :
    execute_sell ⟨0, some ⟨2, 250, 0⟩⟩ 3 =
      ({ demo_balance := 250 * 3, position := none },
       some ((3 - 2) * 250)) :=
  execute_sell_liquidates ⟨0, some ⟨2, 250, 0⟩⟩ ⟨2, 250, 0⟩ 3 rfl

/-- C6: the cycle's decision step ignores a sell signal while Flat and a
buy signal while Long: the state (balance and all position fields) is
returned unchanged. -/
theorem noop_flat_sell_long_buy (s : BotState) (price : ℚ) (t : ℕ) :
    (s.position = none →
      stepDecision s { buy := false, sell := true } price t = some s) ∧
    (s.position.isSome = true →
      stepDecision s { buy := true, sell := false } price t = some s) := by
  obtain ⟨b, pos⟩ := s
  rcases pos with - | p
  · exact ⟨fun _ => rfl, fun hc => by simp at hc⟩
  · exact ⟨fun hc => by simp at hc, fun _ => rfl⟩

/-- C6 witness: a Flat state ignores a sell signal; a Long state ignores a
buy signal. -/
theorem noop_flat_sell_long_buy_witness :
    stepDecision ⟨500, none⟩ { buy := false, sell := true } 2 0 =
        some ⟨500, none⟩ ∧
      stepDecision ⟨0, some ⟨2, 250, 0⟩⟩ { buy := true, sell := false } 3 1 =
        some ⟨0, some ⟨2, 250, 0⟩⟩ :=
  ⟨(noop_flat_sell_long_buy ⟨500, none⟩ 2 0).1 rfl,
   (noop_flat_sell_long_buy ⟨0, some ⟨2, 250, 0⟩⟩ 3 1).2 rfl⟩

/-- C7: with fewer than two rows, `analyze_signals` returns the no-signal
value (neither buy nor sell) as a normal result. -/
theorem no_signal_below_two_rows (df : List Snapshot) (h : df.length < 2) :
    analyze_signals df = { buy := false, sell := false } := by
  rw [analyze_signals, if_pos h]

/-- C7 witness: a single-row frame yields no signal. -/
theorem no_signal_below_two_rows_witness :
    analyze_signals [⟨1, 1, 1, 50, 0⟩] = { buy := false, sell := false } :=
  no_signal_below_two_rows [⟨1, 1, 1, 50, 0⟩] (by simp)

/-- C8: a close sequence shorter than the warm-up window of
`max(span, period) = 10` entries yields no valid snapshot: the indicator
result is empty. -/
theorem warmup_no_snapshot (closes : List ℚ) (h : closes.length < 10) :
    calculate_indicators closes = [] := by
  rw [calculate_indicators]
  rw [List.filterMap_eq_nil_iff]
  intro i hi
  have h10 : emaAt 10 closes i = none :=
    emaAt_eq_none 10 closes i (by have := List.mem_range.mp hi; omega)
  cases h5 : emaAt 5 closes i <;> simp [h5, h10]

/-- C8 witness: three closes produce no snapshot. -/
theorem warmup_no_snapshot_witness :
    calculate_indicators [1, 2, 3] = [] :=
  warmup_no_snapshot [1, 2, 3] (by simp)

/-- C9: one iteration of the worker loop continues (after the normal sleep)
on every input except operator interruption, which is the only way the
loop ends; and errors (empty fetch, empty indicators, any exception) leave
the account state unchanged — a skipped cycle. -/
theorem worker_loop_control (s : BotState) (t : ℕ) :
    (∀ ev, (runCycle s t ev).2 = false ↔ ev = CycleInput.interrupt) ∧
      (runCycle s t .fetchEmpty).1 = s ∧
      (runCycle s t .indicatorsEmpty).1 = s ∧
      (runCycle s t .exn).1 = s := by
  refine ⟨fun ev => ?_, rfl, rfl, rfl⟩
  cases ev with
  | rows df =>
    rw [runCycle]
    cases hsd : stepDecision s (analyze_signals df)
        ((df.getLastD default).close) t <;> simp [hsd]
  | fetchEmpty => simp [runCycle]
  | indicatorsEmpty => simp [runCycle]
  | interrupt => simp [runCycle]
  | exn => simp [runCycle]

/-- C10: `execute_buy` divides by the price with no zero guard: at any
positive price the call succeeds (no exception), and at price zero with a
positive balance the division is reached and raises. -/
theorem execute_buy_division_guard (s : BotState) (t : ℕ) :
    (∀ price : ℚ, 0 < price → (execute_buy s price t).isSome = true) ∧
      (0 < s.demo_balance → execute_buy s 0 t = none) := by
  constructor
  · intro price hp
    rw [execute_buy]
    by_cases hb : s.demo_balance ≤ 0
    · rw [if_pos hb]; rfl
    · rw [if_neg hb, if_neg (ne_of_gt hp)]; rfl
  · intro hb
    rw [execute_buy, if_neg (not_le.mpr hb), if_pos rfl]

/-- C10 witness: with balance 500, buying at price 2 succeeds and buying at
price 0 raises (returns `none`). -/
theorem execute_buy_division_guard_witness :
    (execute_buy ⟨500, none⟩ 2 0).isSome = true ∧
      execute_buy ⟨500, none⟩ 0 0 = none :=
  ⟨(execute_buy_division_guard ⟨500, none⟩ 0).1 2 (by norm_num),
   (execute_buy_division_guard ⟨500, none⟩ 0).2
     (by show (0 : ℚ) < 500; norm_num)⟩

end TradingBot
